import Mathlib

/-!
Verification of the harborapi request/response pipeline.

The definitions below are a shallow embedding of `harborapi/exceptions.py`
and `harborapi/client.py`: JSON values are modelled by an inductive type,
HTTP responses by their status code and (optional) decoded JSON body, and
each Python function of the pipeline by a Lean function that mirrors its
control flow line by line.  Helpers that live in modules not present in
the source tree (`harborapi.utils`, `harborapi.models`, the `pydantic`
validator and the `backoff` decorator semantics) are modelled from the
specification and documented as such at their definition sites.
-/

namespace Harborapi

/-! ## JSON values -/

/-- Decoded JSON values, as produced by `response.json()`. -/
inductive Json where
  | null
  | bool (b : Bool)
  | num (n : Int)
  | str (s : String)
  | arr (elems : List Json)
  | obj (fields : List (String × Json))

/-- Python `isinstance(j, list)`. -/
def Json.isArr : Json → Bool
  | .arr _ => true
  | _ => false

/-- Python `isinstance(j, dict)`. -/
def Json.isObj : Json → Bool
  | .obj _ => true
  | _ => false

/-- The elements of a JSON array (`[]` for non-arrays). -/
def Json.items : Json → List Json
  | .arr xs => xs
  | _ => []

/-- Python `dict.get`: first binding of the key, `None` when absent.
Python dict keys are unique, so first-match lookup is exact. -/
def objGet : List (String × Json) → String → Option Json
  | [], _ => none
  | (k, v) :: rest, key => if k = key then some v else objGet rest key

/-- Python truthiness of a decoded JSON value (`bool(j)`):
`None`, `False`, `0`, `""`, `[]` and `\x7b\x7d` are falsy. -/
def truthy : Json → Bool
  | .null => false
  | .bool b => b
  | .num n => decide (n ≠ 0)
  | .str s => decide (s ≠ "")
  | .arr xs => !xs.isEmpty
  | .obj kvs => !kvs.isEmpty

/-! ## harborapi/exceptions.py -/

/-- The exception classes of `harborapi.exceptions`: the six `StatusError`
subclasses and the generic `StatusError` itself. -/
inductive ExcKind where
  | badRequest
  | unauthorized
  | forbidden
  | notFound
  | preconditionFailed
  | internalServerError
  | statusError
deriving DecidableEq

/-- Modelled from the spec: `harborapi.models.Error` is not under `src/`;
spec section 3 describes a Structured Error as "one reported failure unit
with a machine-readable code and a human message" (both optional in the
JSON envelope). -/
structure Error where
  code : Option String
  message : Option String
deriving DecidableEq

/-- Modelled from the spec: `harborapi.models.Errors` is not under `src/`;
spec section 3 describes an Error Collection as "an ordered sequence of
zero or more Structured Errors, parsed from a JSON error envelope". -/
structure ErrorsModel where
  errors : Option (List Error)
deriving DecidableEq

/-- Parse an optional string field of the error envelope; a present value
of any non-string, non-null type fails validation. -/
def parseOptStr : Option Json → Option (Option String)
  | none => some none
  | some Json.null => some none
  | some (Json.str s) => some (some s)
  | some _ => none

/-- Parse one `Error` entry from JSON (validation of a single element of
the `errors` array of the envelope). -/
def parseError : Json → Option Error
  | Json.obj kvs =>
    match parseOptStr (objGet kvs ("code")), parseOptStr (objGet kvs ("message")) with
    | some c, some m => some ⟨c, m⟩
    | _, _ => none
  | _ => none

/-- Parse the error envelope `Errors(**response.json())`: an object with
an optional `errors` key holding an array of `Error` entries. Any
non-conforming shape fails (the parse failure is logged, not raised). -/
def parseErrors : Json → Option ErrorsModel
  | Json.obj kvs =>
    match objGet kvs ("errors") with
    | none => some ⟨none⟩
    | some Json.null => some ⟨none⟩
    | some (Json.arr xs) =>
      match xs.mapM parseError with
      | some es => some ⟨some es⟩
      | none => none
    | some _ => none
  | _ => none

/-- `exceptions.try_parse_errors`: returns the parsed envelope when the
response body is JSON and conforms, `None` otherwise. The body is given
as `none` when the response carries no JSON body (`utils.is_json` is not
under `src/`; per the spec the parse is attempted exactly on JSON
bodies). -/
def try_parse_errors (body : Option Json) : Option ErrorsModel :=
  match body with
  | none => none
  | some j => parseErrors j

/-- `StatusError.__init__`: `self.errors = []`, replaced by
`errors.errors` only when the argument is an `Errors` instance whose
`errors` list is truthy (non-`None` and non-empty). -/
def statusErrorInit (errors : Option ErrorsModel) : List Error :=
  match errors with
  | some ⟨some (e :: es)⟩ => e :: es
  | _ => []

/-- The observable state of a raised `StatusError` (or subclass):
which class was raised, its `errors` attribute as set by `__init__`, and
the status code reachable through `__cause__.response.status_code`
(the `raise ... from e` attaches the `HTTPStatusError` as the cause). -/
structure RaisedStatusError where
  kind : ExcKind
  errors : List Error
  causeStatus : Nat
deriving DecidableEq

/-- The `exceptions` dict of `check_response_status`:
`exceptions.get(status_code, StatusError)`. -/
def exceptions_map (status : Nat) : ExcKind :=
  if status = 400 then ExcKind.badRequest
  else if status = 401 then ExcKind.unauthorized
  else if status = 403 then ExcKind.forbidden
  else if status = 404 then ExcKind.notFound
  else if status = 412 then ExcKind.preconditionFailed
  else if status = 500 then ExcKind.internalServerError
  else ExcKind.statusError

/-- httpx `Response.is_success`: `response.raise_for_status()` raises
`HTTPStatusError` exactly when the status code is outside 200..299. -/
def is_success (status : Nat) : Bool :=
  decide (200 ≤ status) && decide (status < 300)

/-- `exceptions.check_response_status`: returns `none` when no exception
propagates, otherwise the raised error object.

Mirrors the source: on a non-2xx status (and not `missing_ok` with 404),
line 79 computes `errors = try_parse_errors(response)`, which is only
passed to the logger; line 94 `raise exc from e` instantiates the
exception class with no arguments, so `StatusError.__init__` receives
`errors = None` and sets the `errors` attribute to `[]`. -/
def check_response_status (status : Nat) (body : Option Json) (missing_ok : Bool) :
    Option RaisedStatusError :=
  if is_success status then none
  else if missing_ok && decide (status = 404) then none
  else
    -- `errors := try_parse_errors body` is computed here in the source but
    -- only logged; the raise passes no arguments to the class.
    some { kind := exceptions_map status
         , errors := statusErrorInit none
         , causeStatus := status }

/-! ## Per-verb status checking (client.py call sites)

`_get` (line 829), `_post` (line 889), `_put` (line 927) and `_patch`
(line 966) all call `check_response_status(resp)` with `missing_ok`
left at its default `False`; only `_delete` (line 1001) forwards a
caller-supplied `missing_ok` flag. -/

def get_check (status : Nat) (body : Option Json) : Option RaisedStatusError :=
  check_response_status status body false

def post_check (status : Nat) (body : Option Json) : Option RaisedStatusError :=
  check_response_status status body false

def put_check (status : Nat) (body : Option Json) : Option RaisedStatusError :=
  check_response_status status body false

def patch_check (status : Nat) (body : Option Json) : Option RaisedStatusError :=
  check_response_status status body false

def delete_check (status : Nat) (body : Option Json) (missing_ok : Bool) :
    Option RaisedStatusError :=
  check_response_status status body missing_ok

/-! ## Theorems for claims C1, C2, C10 -/

/-- C1: the status checker raises no error on a 2xx status; for 400, 401,
403, 404, 412 and 500 it raises exactly the corresponding typed error;
any other non-2xx status raises the generic `StatusError`; and for 404
with `missing_ok = true` it returns normally — all regardless of the
response body. -/
theorem check_response_status_taxonomy (status : Nat) (body : Option Json) :
    (∀ missing_ok : Bool, 200 ≤ status → status < 300 →
        check_response_status status body missing_ok = none)
    ∧ ((check_response_status 400 body false).map RaisedStatusError.kind
          = some ExcKind.badRequest
        ∧ (check_response_status 401 body false).map RaisedStatusError.kind
          = some ExcKind.unauthorized
        ∧ (check_response_status 403 body false).map RaisedStatusError.kind
          = some ExcKind.forbidden
        ∧ (check_response_status 404 body false).map RaisedStatusError.kind
          = some ExcKind.notFound
        ∧ (check_response_status 412 body false).map RaisedStatusError.kind
          = some ExcKind.preconditionFailed
        ∧ (check_response_status 500 body false).map RaisedStatusError.kind
          = some ExcKind.internalServerError)
    ∧ (¬ (200 ≤ status ∧ status < 300) →
        status ∉ [400, 401, 403, 404, 412, 500] →
        (check_response_status status body false).map RaisedStatusError.kind
          = some ExcKind.statusError)
    ∧ check_response_status 404 body true = none := by
  refine ⟨?_, ⟨?_, ?_, ?_, ?_, ?_, ?_⟩, ?_, ?_⟩
  · intro missing_ok h1 h2
    simp [check_response_status, is_success, h1, h2]
  · rfl
  · rfl
  · rfl
  · rfl
  · rfl
  · rfl
  · intro hns hmem
    simp only [List.mem_cons, List.not_mem_nil, or_false, not_or] at hmem
    obtain ⟨h400, h401, h403, h404, h412, h500⟩ := hmem
    have hfail : is_success status = false := by
      simp [is_success]
      omega
    simp [check_response_status, hfail, exceptions_map, h400, h401, h403, h404, h412, h500]
  · rfl

/-- Witness for C1 at concrete statuses: 204 is accepted silently and 503
raises the generic error. -/
theorem check_response_status_taxonomy_witness :
    (200 ≤ 204 ∧ 204 < 300 ∧ check_response_status 204 none true = none)
    ∧ (¬ (200 ≤ 503 ∧ 503 < 300) ∧ 503 ∉ [400, 401, 403, 404, 412, 500]
        ∧ (check_response_status 503 none false).map RaisedStatusError.kind
            = some ExcKind.statusError) :=
  ⟨⟨by decide, by decide,
      (check_response_status_taxonomy 204 none).1 true (by decide) (by decide)⟩,
    ⟨by decide, by decide,
      (check_response_status_taxonomy 503 none).2.2.1 (by decide) (by decide)⟩⟩

/-- A concrete parseable error envelope:
a 500 response whose body is an `errors` array with one entry. -/
def sampleErrBody : Json :=
  Json.obj [("errors", Json.arr [Json.obj
    [("code", Json.str ("FORBIDDEN")), ("message", Json.str ("forbidden"))]])]

/-- C2 (divergence): the response body parses to a non-empty Error
Collection, yet the raised error's `errors` attribute is `[]` — the
source computes `errors = try_parse_errors(response)` and then raises
with `raise exc from e`, instantiating the class without arguments, so
the parsed collection is dropped.  The status code does reach the error
through its cause. -/
theorem status_error_drops_parsed_errors :
    try_parse_errors (some sampleErrBody)
        = some ⟨some [⟨some ("FORBIDDEN"), some ("forbidden")⟩]⟩
    ∧ statusErrorInit (try_parse_errors (some sampleErrBody)) ≠ []
    ∧ (check_response_status 500 (some sampleErrBody) false).map RaisedStatusError.errors
        = some []
    ∧ (check_response_status 500 (some sampleErrBody) false).map RaisedStatusError.causeStatus
        = some 500 :=
  ⟨rfl, by decide, rfl, rfl⟩

/-- C10: among the five transport verbs only `delete` forwards a
`missing_ok` flag to the status checker; `get`, `post`, `put` and
`patch` always call it with `missing_ok = False`, so a 404 response
raises `NotFound` for those four verbs, while `delete` with
`missing_ok = true` returns normally on a 404. -/
theorem only_delete_forwards_missing_ok (body : Option Json) :
    (get_check 404 body).map RaisedStatusError.kind = some ExcKind.notFound
    ∧ (post_check 404 body).map RaisedStatusError.kind = some ExcKind.notFound
    ∧ (put_check 404 body).map RaisedStatusError.kind = some ExcKind.notFound
    ∧ (patch_check 404 body).map RaisedStatusError.kind = some ExcKind.notFound
    ∧ delete_check 404 body true = none
    ∧ (delete_check 404 body false).map RaisedStatusError.kind = some ExcKind.notFound :=
  ⟨rfl, rfl, rfl, rfl, rfl, rfl⟩

/-! ## Retrying transport (claim C3)

`client.py` line 858: `@backoff.on_exception(backoff.expo, RequestError, max_tries=1)`
on `post`. Only `httpx.RequestError` (network/connection-level failure)
is caught by the decorator; a non-2xx response makes `check_response_status`
raise a `StatusError`, which the decorator does not catch.  -/

/-- The observable outcome of one attempt of the decorated request
function: a successful response, a network-level `RequestError`, or a
`StatusError` raised by the status check on a non-2xx response. -/
inductive Outcome where
  | ok (body : Json)
  | requestError
  | httpStatus (status : Nat)

/-- Modelled from the spec and the `backoff` package contract (the
`backoff` library itself is a third-party dependency not under `src/`):
`backoff.on_exception(..., RequestError, max_tries=n)` invokes the
target; only `RequestError` is caught; the attempt counter increments per
call and once it reaches `max_tries` the exception propagates.  Returns
the number of attempts performed and the final outcome, given the
outcome of each successive attempt. -/
def backoff_on_exception (outcomes : Nat → Outcome) : Nat → Nat → Nat × Outcome
  | _, 0 => (0, Outcome.requestError)
  | start, fuel + 1 =>
    match outcomes start with
    | Outcome.requestError =>
      if fuel = 0 then (1, Outcome.requestError)
      else
        let r := backoff_on_exception outcomes (start + 1) fuel
        (r.1 + 1, r.2)
    | o => (1, o)

/-- `HarborAsyncClient.post`: the request function under
`max_tries = 1` (client.py line 858). -/
def post_transport (outcomes : Nat → Outcome) : Nat × Outcome :=
  backoff_on_exception outcomes 0 1

/-- C3: under persistent network-level failure, `post` performs at most
two attempts in total before propagating the failure (with
`max_tries = 1` it in fact performs exactly one), and an HTTP error
status never triggers a retry: it propagates after the single attempt. -/
theorem post_attempts_at_most_two (outcomes : Nat → Outcome) :
    (post_transport outcomes).1 ≤ 2
    ∧ ((∀ i, outcomes i = Outcome.requestError) →
        post_transport outcomes = (1, Outcome.requestError))
    ∧ (∀ s, outcomes 0 = Outcome.httpStatus s →
        post_transport outcomes = (1, Outcome.httpStatus s)) := by
  refine ⟨?_, ?_, ?_⟩
  · cases h : outcomes 0 <;> simp [post_transport, backoff_on_exception, h]
  · intro hall
    simp [post_transport, backoff_on_exception, hall 0]
  · intro s hs
    simp [post_transport, backoff_on_exception, hs]

/-- Witness for C3: a transport that fails with a network error on every
attempt makes `post` give up after one attempt, and a transport whose
first attempt yields HTTP 500 propagates the status error after one
attempt. -/
theorem post_attempts_at_most_two_witness :
    ((∀ i : Nat, (fun _ => Outcome.requestError) i = Outcome.requestError)
      ∧ post_transport (fun _ => Outcome.requestError) = (1, Outcome.requestError))
    ∧ ((fun _ => Outcome.httpStatus 500) 0 = Outcome.httpStatus 500
      ∧ post_transport (fun _ => Outcome.httpStatus 500) = (1, Outcome.httpStatus 500)) :=
  ⟨⟨fun _ => rfl,
    (post_attempts_at_most_two (fun _ => Outcome.requestError)).2.1 (fun _ => rfl)⟩,
    ⟨rfl,
    (post_attempts_at_most_two (fun _ => Outcome.httpStatus 500)).2.2 500 rfl⟩⟩

/-! ## Pagination aggregation (claim C4)

`_get` (client.py line 835): after decoding the first page, if the
response carries a `link` header and `follow_links` is enabled, the rest
of the chain is fetched through `_handle_pagination`, which recursively
calls `self.get(link)` (itself following further links) and then either
extends the accumulated list or, on a non-list value, logs a warning and
returns the accumulation gathered so far. -/

/-- `HarborAsyncClient._handle_pagination` applied to the already decoded
first argument `data` and the fully aggregated result of `self.get(link)`
(paired with whether a warning was logged somewhere in that recursion):
a non-list on either side logs a warning and returns `data` unchanged;
otherwise `data.extend(j)`. -/
def handle_pagination (data : Json) (jw : Json × Bool) : Json × Bool :=
  if !jw.1.isArr || !data.isArr then (data, true)
  else (Json.arr (data.items ++ jw.1.items), jw.2)

/-- `_get` with `follow_links = True` over a linked chain of pages: the
first argument is the decoded current page, the second the pages
reachable through successive `link` headers (empty when the response has
no `link` header).  Returns the aggregated value and whether the
non-list warning was logged. -/
def get_pages : Json → List Json → Json × Bool
  | page, [] => (page, false)
  | page, next :: rest => handle_pagination page (get_pages next rest)

/-- All pages are arrays: the aggregation concatenates them in arrival
order with no warning. -/
theorem get_pages_arrays (rest : List (List Json)) :
    ∀ first : List Json,
      get_pages (Json.arr first) (rest.map Json.arr)
        = (Json.arr (first ++ rest.flatten), false) := by
  induction rest with
  | nil => intro first; simp [get_pages]
  | cons l ls ih =>
    intro first
    have h := ih l
    simp only [List.map_cons, get_pages]
    rw [h]
    simp [handle_pagination, Json.isArr, Json.items, List.append_assoc]

/-- A non-array page keeps its place as the head of the aggregation of
its suffix, so the level above sees a non-list and abandons. -/
theorem get_pages_bad_head (bad : Json) (hbad : bad.isArr = false) (tail2 : List Json) :
    (get_pages bad tail2).1 = bad := by
  cases tail2 with
  | nil => rfl
  | cons t ts => simp [get_pages, handle_pagination, hbad]

/-- Arrays followed by a non-array page: the aggregation returns the
concatenation of the leading arrays and records the warning. -/
theorem get_pages_arrays_then_bad (bad : Json) (hbad : bad.isArr = false)
    (tail2 : List Json) (rest : List (List Json)) :
    ∀ first : List Json,
      get_pages (Json.arr first) (rest.map Json.arr ++ bad :: tail2)
        = (Json.arr (first ++ rest.flatten), true) := by
  induction rest with
  | nil =>
    intro first
    have h1 : (get_pages bad tail2).1 = bad := get_pages_bad_head bad hbad tail2
    simp only [List.map_nil, List.nil_append, get_pages]
    simp [handle_pagination, h1, hbad]
  | cons l ls ih =>
    intro first
    have h := ih l
    simp only [List.map_cons, List.cons_append, get_pages, List.append_eq]
    rw [h]
    simp [handle_pagination, Json.isArr, Json.items, List.append_assoc]

/-- C4: for a GET whose pages are JSON arrays linked in sequence (with
link-following enabled), the aggregator returns one array containing
every item in original arrival order, of length the sum of the page
sizes, with no warning; and when page `k` (for some `k > 1`) is not a
JSON array, the result is exactly the concatenation of pages
`1 .. k - 1` with the warning logged and no exception raised. -/
theorem pagination_aggregation (first : List Json) (rest : List (List Json))
    (bad : Json) (tail2 : List Json) (hbad : bad.isArr = false) :
    (get_pages (Json.arr first) (rest.map Json.arr)
        = (Json.arr (first ++ rest.flatten), false)
      ∧ (first ++ rest.flatten).length
          = first.length + (rest.map List.length).sum)
    ∧ get_pages (Json.arr first) (rest.map Json.arr ++ bad :: tail2)
        = (Json.arr (first ++ rest.flatten), true) := by
  refine ⟨⟨get_pages_arrays rest first, ?_⟩,
    get_pages_arrays_then_bad bad hbad tail2 rest first⟩
  simp [List.length_flatten]

/-- Witness for C4 at a concrete three-page chain and at a chain whose
third page is an object. -/
theorem pagination_aggregation_witness :
    ((Json.obj []).isArr = false)
    ∧ get_pages (Json.arr [Json.num 1, Json.num 2])
        ([[Json.num 3]].map Json.arr ++ Json.obj [] :: [])
      = (Json.arr ([Json.num 1, Json.num 2] ++ [[Json.num 3]].flatten), true) :=
  ⟨rfl,
    (pagination_aggregation [Json.num 1, Json.num 2] [[Json.num 3]]
      (Json.obj []) [] rfl).2⟩

/-! ## URL normalization (claim C5)

`_HarborClientBase.__init__`, client.py lines 73-80:
`url = url.strip("/")`; then if `version` is truthy and `"/api/v"` does
not occur in the url, append `"/" + version` when `"/api"` occurs and
`"/api/" + version` otherwise; finally `self.url = url.strip("/")`.
Python `str.strip("/")` removes the character from BOTH ends. -/

/-- Drop leading `'/'` characters. -/
def stripLead : List Char → List Char
  | [] => []
  | c :: cs => if c = '/' then stripLead cs else c :: cs

/-- The head of the list, when present, is not `'/'`. -/
def headNotSlash : List Char → Bool
  | [] => true
  | c :: _ => decide (c ≠ '/')

theorem stripLead_headNotSlash : ∀ l : List Char, headNotSlash (stripLead l) = true := by
  intro l
  induction l with
  | nil => rfl
  | cons c cs ih =>
    by_cases hc : c = '/'
    · simpa [stripLead, hc] using ih
    · simp [stripLead, hc, headNotSlash]

theorem stripLead_of_headNotSlash (l : List Char) (h : headNotSlash l = true) :
    stripLead l = l := by
  cases l with
  | nil => rfl
  | cons c cs =>
    simp only [headNotSlash, decide_eq_true_eq] at h
    simp [stripLead, h]

theorem headNotSlash_append (xs ys : List Char) (hx : xs ≠ []) :
    headNotSlash (xs ++ ys) = headNotSlash xs := by
  cases xs with
  | nil => exact absurd rfl hx
  | cons c cs => rfl

theorem stripLead_preserves_last (l : List Char) (h : headNotSlash l.reverse = true) :
    headNotSlash (stripLead l).reverse = true := by
  induction l with
  | nil => rfl
  | cons c cs ih =>
    by_cases hc : c = '/'
    · cases cs with
      | nil => simp [headNotSlash, hc] at h
      | cons d ds =>
        have hrev : (c :: d :: ds).reverse = (d :: ds).reverse ++ [c] := by
          simp
        rw [hrev, headNotSlash_append _ _ (by simp)] at h
        simpa [stripLead, hc] using ih h
    · simpa [stripLead, hc] using h

/-- Python `s.strip("/")` on the character list: drop `'/'` from both
ends. -/
def pyStripData (l : List Char) : List Char :=
  (stripLead ((stripLead l).reverse)).reverse

theorem pyStripData_headNotSlash (l : List Char) :
    headNotSlash (pyStripData l) = true := by
  apply stripLead_preserves_last
  rw [List.reverse_reverse]
  exact stripLead_headNotSlash l

theorem pyStripData_lastNotSlash (l : List Char) :
    headNotSlash (pyStripData l).reverse = true := by
  unfold pyStripData
  rw [List.reverse_reverse]
  exact stripLead_headNotSlash _

theorem pyStripData_idem (l : List Char) : pyStripData (pyStripData l) = pyStripData l := by
  have h1 : stripLead (pyStripData l) = pyStripData l :=
    stripLead_of_headNotSlash _ (pyStripData_headNotSlash l)
  have h2 : stripLead (pyStripData l).reverse = (pyStripData l).reverse :=
    stripLead_of_headNotSlash _ (pyStripData_lastNotSlash l)
  show (stripLead ((stripLead (pyStripData l)).reverse)).reverse = pyStripData l
  rw [h1, h2, List.reverse_reverse]

/-- Python `s.strip("/")`: strips `'/'` from both ends of the string. -/
def pyStrip (s : String) : String := String.mk (pyStripData s.data)

/-- Stripping only trailing slashes (the spec's words). -/
def stripTrailing (s : String) : String :=
  String.mk ((stripLead s.data.reverse).reverse)

theorem pyStrip_idem (s : String) : pyStrip (pyStrip s) = pyStrip s :=
  congrArg String.mk (pyStripData_idem s.data)

theorem pyStrip_lastNotSlash (s : String) :
    headNotSlash (pyStrip s).data.reverse = true :=
  pyStripData_lastNotSlash s.data

/-- Does `pat` start the list `s`? -/
def startsWithChars : List Char → List Char → Bool
  | [], _ => true
  | _ :: _, [] => false
  | p :: ps, c :: cs => decide (p = c) && startsWithChars ps cs

/-- Does `pat` occur contiguously in `s`? -/
def hasSubChars (pat : List Char) : List Char → Bool
  | [] => startsWithChars pat []
  | c :: cs => startsWithChars pat (c :: cs) || hasSubChars pat cs

/-- Python `pat in s` on strings: contiguous substring occurrence. -/
def containsSub (s pat : String) : Bool := hasSubChars pat.data s.data

/-- `_HarborClientBase.__init__` URL normalization, lines 73-80 of
client.py, with Python `strip("/")` semantics (both ends) and the
truthiness guard on `version`. -/
def normalize_url (url version : String) : String :=
  let url1 := pyStrip url
  let url2 :=
    if version ≠ "" ∧ containsSub url1 ("/api/v") = false then
      if containsSub url1 ("/api") = true then pyStrip url1 ++ ("/") ++ version
      else url1 ++ ("/api/") ++ version
    else url1
  pyStrip url2

/-- The normalization rule exactly as the spec words it: strip TRAILING
slashes only, no guard on the version string. Stated for comparison
with `normalize_url`, which is translated from the source. -/
def normalize_url_spec (url version : String) : String :=
  let url1 := stripTrailing url
  let url2 :=
    if containsSub url1 ("/api/v") = false then
      if containsSub url1 ("/api") = true then url1 ++ ("/") ++ version
      else url1 ++ ("/api/") ++ version
    else url1
  stripTrailing url2

/-- The amended normalization rule: strip slashes from BOTH ends (Python
`str.strip`), then the same branch structure; stated for non-empty
version strings. -/
def normalize_url_amended (url version : String) : String :=
  let url1 := pyStrip url
  let url2 :=
    if containsSub url1 ("/api/v") = false then
      if containsSub url1 ("/api") = true then url1 ++ ("/") ++ version
      else url1 ++ ("/api/") ++ version
    else url1
  pyStrip url2

/-- C5 (counterexample): the claim says only trailing slashes are
stripped, but `str.strip("/")` also strips leading slashes, so a URL
with a leading slash is normalized differently from what the claim
states. -/
theorem normalize_url_claim_counterexample :
    normalize_url ("/h.com") ("v2.0") ≠ normalize_url_spec ("/h.com") ("v2.0") := by
  decide

/-- C5 (amended): for every base URL and every non-empty version string,
construction strips slashes from both ends, leaves URLs already
containing `/api/v` untouched, appends the version after `/api`, appends
`/api/<version>` otherwise, and the result carries no trailing slash;
the spec's concrete examples all hold. -/
theorem normalize_url_amended_correct (url version : String) (hv : version ≠ "") :
    normalize_url url version = normalize_url_amended url version
    ∧ headNotSlash (normalize_url url version).data.reverse = true
    ∧ normalize_url ("https://h.com") ("v2.0") = ("https://h.com/api/v2.0")
    ∧ normalize_url ("https://h.com/api") ("v2.0") = ("https://h.com/api/v2.0")
    ∧ normalize_url ("https://h.com/api/") ("v2.0") = ("https://h.com/api/v2.0")
    ∧ normalize_url ("https://h.com/api/v2.0/") ("v2.0") = ("https://h.com/api/v2.0")
    ∧ normalize_url ("https://h.com/api/v3.7") ("v2.0") = ("https://h.com/api/v3.7") := by
  refine ⟨?_, ?_, by decide, by decide, by decide, by decide, by decide⟩
  · unfold normalize_url normalize_url_amended
    by_cases h1 : containsSub (pyStrip url) ("/api/v") = false
    · by_cases h2 : containsSub (pyStrip url) ("/api") = true
      · simp [h1, h2, hv, pyStrip_idem]
      · simp [h1, h2, hv]
    · simp [h1, hv]
  · unfold normalize_url
    exact pyStrip_lastNotSlash _

/-- Witness for the amended C5 at a concrete URL and version. -/
theorem normalize_url_amended_correct_witness :
    (("v2.0" : String) ≠ "")
    ∧ normalize_url ("https://h.com") ("v2.0")
        = normalize_url_amended ("https://h.com") ("v2.0") :=
  ⟨by decide,
    (normalize_url_amended_correct ("https://h.com") ("v2.0") (by decide)).1⟩

/-! ## Model construction (claim C6)

`client.construct_model` delegates entirely to `cls.parse_obj(data)`.
The validator and the model classes (`harborapi.models`) are not under
`src/`, so validation is modelled from the spec. -/

/-- Modelled from the spec: the JSON value kinds a schema field may
require (spec 9: "a static, declarative schema definition per model"). -/
inductive FieldType where
  | fstr
  | fint
  | fbool
  | farr
  | fobj
deriving DecidableEq

/-- Modelled from the spec: one declared field of a schema — a name, a
required JSON kind, and whether the field is required. -/
structure FieldSpec where
  name : String
  ftype : FieldType
  required : Bool
deriving DecidableEq

/-- One entry of a `ValidationError`: the offending field path and its
message. -/
structure FieldError where
  loc : String
  msg : String
deriving DecidableEq

/-- Does the JSON value have the kind the field declares? -/
def checkType : FieldType → Json → Bool
  | .fstr, .str _ => true
  | .fint, .num _ => true
  | .fbool, .bool _ => true
  | .farr, .arr _ => true
  | .fobj, .obj _ => true
  | _, _ => false

/-- Validate one declared field against the data: a missing required
field or a present field of the wrong kind yields an error naming the
field. Unknown extra keys of the data are never inspected (permissive on
unknown fields). -/
def validateField (kvs : List (String × Json)) (f : FieldSpec) : Option FieldError :=
  match objGet kvs f.name with
  | none => if f.required then some ⟨f.name, ("field required")⟩ else none
  | some v => if checkType f.ftype v then none else some ⟨f.name, ("wrong type")⟩

/-- The constructed instance: the declared fields with their values from
the data (unknown extra keys ignored). -/
def instOf (schema : List FieldSpec) (kvs : List (String × Json)) :
    List (String × Json) :=
  schema.filterMap (fun f => (objGet kvs f.name).map (fun v => (f.name, v)))

/-- Modelled from the spec: `construct_model` — succeed with a typed
instance when the data conforms to the schema, otherwise fail atomically
with the list of every field error (spec 4.3: a `ValidationError`
"enumerating every offending field path and message"). -/
def construct_model (schema : List FieldSpec) (data : Json) :
    Except (List FieldError) (List (String × Json)) :=
  match data with
  | Json.obj kvs =>
    let errs := schema.filterMap (validateField kvs)
    if errs.isEmpty then Except.ok (instOf schema kvs)
    else Except.error errs
  | _ => Except.error [⟨("__root__"), ("value is not a valid dict")⟩]

/-- A field offends when it is required but absent, or present with the
wrong JSON kind. -/
def fieldOffends (kvs : List (String × Json)) (f : FieldSpec) : Bool :=
  match objGet kvs f.name with
  | none => f.required
  | some v => !checkType f.ftype v

theorem validateField_none_iff (kvs : List (String × Json)) (f : FieldSpec) :
    validateField kvs f = none ↔ fieldOffends kvs f = false := by
  unfold validateField fieldOffends
  cases objGet kvs f.name with
  | none => by_cases h : f.required <;> simp [h]
  | some v => by_cases h : checkType f.ftype v <;> simp [h]

theorem fieldOffends_validateField (kvs : List (String × Json)) (f : FieldSpec)
    (h : fieldOffends kvs f = true) :
    ∃ e, validateField kvs f = some e ∧ e.loc = f.name := by
  unfold fieldOffends at h
  unfold validateField
  cases hg : objGet kvs f.name with
  | none =>
    rw [hg] at h
    simp only [] at h
    refine ⟨⟨f.name, ("field required")⟩, ?_, rfl⟩
    simp [h]
  | some v =>
    rw [hg] at h
    simp only [Bool.not_eq_true'] at h
    refine ⟨⟨f.name, ("wrong type")⟩, ?_, rfl⟩
    simp [h]

theorem instOf_lookup_or (schema : List FieldSpec) (kvs : List (String × Json))
    (key : String) :
    objGet (instOf schema kvs) key = none
    ∨ objGet (instOf schema kvs) key = objGet kvs key := by
  induction schema with
  | nil => exact Or.inl rfl
  | cons f fs ih =>
    simp only [instOf, List.filterMap_cons] at ih ⊢
    cases hg : objGet kvs f.name with
    | none => simpa [hg] using ih
    | some v =>
      by_cases hn : f.name = key
      · subst hn
        right
        simp [hg, objGet]
      · rcases ih with h | h
        · left; simp [hg, objGet, hn, h]
        · right; simp [hg, objGet, hn, h]

theorem instOf_lookup_present (schema : List FieldSpec) (kvs : List (String × Json))
    (f0 : FieldSpec) (hmem : f0 ∈ schema) (v : Json)
    (hv : objGet kvs f0.name = some v) :
    ∃ w, objGet (instOf schema kvs) f0.name = some w := by
  induction schema with
  | nil => cases hmem
  | cons f fs ih =>
    simp only [instOf, List.filterMap_cons] at ih ⊢
    rcases List.mem_cons.mp hmem with h | h
    · subst h
      simp [hv, objGet]
    · cases hg : objGet kvs f.name with
      | none => simpa [hg] using ih h
      | some w =>
        by_cases hn : f.name = f0.name
        · exact ⟨w, by simp [hg, objGet, hn]⟩
        · simpa [hg, objGet, hn] using ih h

theorem instOf_equiv (schema : List FieldSpec) (kvs : List (String × Json))
    (f : FieldSpec) (hmem : f ∈ schema) :
    objGet (instOf schema kvs) f.name = objGet kvs f.name := by
  cases hv : objGet kvs f.name with
  | some v =>
    rcases instOf_lookup_or schema kvs f.name with h | h
    · obtain ⟨w, hw⟩ := instOf_lookup_present schema kvs f hmem v hv
      rw [hw] at h
      cases h
    · rw [h, hv]
  | none =>
    rcases instOf_lookup_or schema kvs f.name with h | h
    · rw [h]
    · rw [h, hv]

/-- C6: when every declared field of the schema conforms, construction
succeeds and the instance carries exactly the data's value for each
declared field; when any field is missing-but-required or wrong-typed,
construction fails atomically with a non-empty error list that names
every offending field. -/
theorem construct_model_validation (schema : List FieldSpec) (kvs : List (String × Json)) :
    ((∀ f ∈ schema, fieldOffends kvs f = false) →
        ∃ inst, construct_model schema (Json.obj kvs) = Except.ok inst
          ∧ ∀ f ∈ schema, objGet inst f.name = objGet kvs f.name)
    ∧ ((∃ f ∈ schema, fieldOffends kvs f = true) →
        ∃ errs, construct_model schema (Json.obj kvs) = Except.error errs
          ∧ errs ≠ []
          ∧ ∀ f ∈ schema, fieldOffends kvs f = true →
              ∃ e ∈ errs, e.loc = f.name) := by
  constructor
  · intro hall
    have hnil : schema.filterMap (validateField kvs) = [] := by
      rw [List.filterMap_eq_nil_iff]
      intro f hf
      exact (validateField_none_iff kvs f).mpr (hall f hf)
    refine ⟨instOf schema kvs, ?_, fun f hf => instOf_equiv schema kvs f hf⟩
    simp [construct_model, hnil]
  · rintro ⟨f0, hf0, hoff⟩
    obtain ⟨e0, he0, _⟩ := fieldOffends_validateField kvs f0 hoff
    have hmem : e0 ∈ schema.filterMap (validateField kvs) :=
      List.mem_filterMap.mpr ⟨f0, hf0, he0⟩
    have hne : schema.filterMap (validateField kvs) ≠ [] := by
      intro hnil
      rw [hnil] at hmem
      cases hmem
    refine ⟨schema.filterMap (validateField kvs), ?_, hne, ?_⟩
    · simp [construct_model, List.isEmpty_iff, hne]
    · intro f hf hoff2
      obtain ⟨e, he, hloc⟩ := fieldOffends_validateField kvs f hoff2
      exact ⟨e, List.mem_filterMap.mpr ⟨f, hf, he⟩, hloc⟩

/-- Witness for C6 at a one-field schema and conforming data. -/
theorem construct_model_validation_witness :
    (∀ f ∈ [FieldSpec.mk ("username") FieldType.fstr true],
        fieldOffends [(("username"), Json.str ("user1"))] f = false)
    ∧ ∃ inst, construct_model [FieldSpec.mk ("username") FieldType.fstr true]
          (Json.obj [(("username"), Json.str ("user1"))]) = Except.ok inst
        ∧ ∀ f ∈ [FieldSpec.mk ("username") FieldType.fstr true],
            objGet inst f.name = objGet [(("username"), Json.str ("user1"))] f.name :=
  ⟨by decide, (construct_model_validation _ _).1 (by decide)⟩

/-! ## Client construction credentials (claim C7)

`_HarborClientBase.__init__`, client.py lines 56-71: when `username` and
`secret` are both truthy the token is derived from them; otherwise a
truthy `credentials` argument is used as-is; otherwise a `ValueError` is
raised. -/

/-- Modelled from the spec: `utils.get_credentials` is not under `src/`;
spec section 3 says the token is "derived deterministically from
(username, secret) via a fixed encoding" (the Basic-Auth encoding of the
joined pair; the base64 step is an injective post-composition immaterial
to the claims). -/
def get_credentials (username secret : String) : String :=
  username ++ (":") ++ secret

/-- The configuration captured at client construction. -/
structure ClientConfig where
  username : Option String
  credentials : String
  url : String

/-- Python truthiness of an optional string argument
(`None` and `""` are falsy). -/
def truthyStr : Option String → Bool
  | none => false
  | some s => decide (s ≠ "")

/-- `_HarborClientBase.__init__`: credential selection and URL
normalization. -/
def client_init (url : String) (username secret credentials : Option String)
    (version : String) : Except String ClientConfig :=
  if truthyStr username && truthyStr secret then
    Except.ok { username := username
              , credentials := get_credentials (username.getD ("")) (secret.getD (""))
              , url := normalize_url url version }
  else if truthyStr credentials then
    Except.ok { username := username
              , credentials := credentials.getD ("")
              , url := normalize_url url version }
  else
    Except.error ("Must provide either username and secret or credentials")

/-- C7: construction with a truthy username+secret pair uses the token
derived from them — any simultaneously supplied token is ignored (the
result does not depend on it) — and construction with neither a pair nor
a token fails with a configuration error. -/
theorem client_credentials_precedence (url version u s : String)
    (tok tok2 : Option String) (hu : u ≠ "") (hs : s ≠ "") :
    (∃ cfg, client_init url (some u) (some s) tok version = Except.ok cfg
        ∧ cfg.credentials = get_credentials u s)
    ∧ client_init url (some u) (some s) tok version
        = client_init url (some u) (some s) tok2 version
    ∧ ∃ msg, client_init url none none none version = Except.error msg := by
  have ht : (truthyStr (some u) && truthyStr (some s)) = true := by
    simp [truthyStr, hu, hs]
  refine ⟨⟨⟨some u, get_credentials u s, normalize_url url version⟩, ?_, rfl⟩, ?_, ⟨_, rfl⟩⟩
  · simp [client_init, ht, get_credentials]
  · simp [client_init, ht]

/-- Witness for C7 at concrete credentials. -/
theorem client_credentials_precedence_witness :
    (("admin" : String) ≠ "" ∧ ("pw" : String) ≠ "")
    ∧ ∃ cfg, client_init ("https://h.com") (some ("admin")) (some ("pw"))
          (some ("ignored-token")) ("v2.0") = Except.ok cfg
        ∧ cfg.credentials = get_credentials ("admin") ("pw") :=
  ⟨⟨by decide, by decide⟩,
    (client_credentials_precedence ("https://h.com") ("v2.0") ("admin") ("pw")
      (some ("ignored-token")) none (by decide) (by decide)).1⟩

/-! ## Request headers (claim C8)

`HarborAsyncClient._get_headers` (client.py lines 757-764): start from
the two base headers and `dict.update` with the caller's headers, so
caller values win on every key conflict; `_get`, `_post`, `_put`,
`_patch` and `_delete` each pass their `headers` argument through it. -/

/-- First-match association lookup (Python dict keys are unique). -/
def lookupKey : List (String × String) → String → Option String
  | [], _ => none
  | (k1, v1) :: rest, key => if k1 = key then some v1 else lookupKey rest key

/-- Python `dict.__setitem__`: replace the value in place when the key
exists, append otherwise. -/
def setKey : List (String × String) → String → String → List (String × String)
  | [], k, v => [(k, v)]
  | (k1, v1) :: rest, k, v =>
    if k1 = k then (k1, v) :: rest else (k1, v1) :: setKey rest k v

/-- Python `d1.update(d2)`. -/
def dictUpdate (d1 d2 : List (String × String)) : List (String × String) :=
  d2.foldl (fun acc kv => setKey acc kv.1 kv.2) d1

/-- The `base_headers` dict of `_get_headers`. -/
def base_headers (credentials : String) : List (String × String) :=
  [(("Authorization"), ("Basic ") ++ credentials),
   (("Accept"), ("application/json"))]

/-- `HarborAsyncClient._get_headers`: `headers = headers or` the empty
dict; `base_headers.update(headers)`. -/
def get_headers (credentials : String) (headers : Option (List (String × String))) :
    List (String × String) :=
  dictUpdate (base_headers credentials) (headers.getD [])

/-- The five transport verbs. -/
inductive Verb where
  | get
  | post
  | put
  | patch
  | delete
deriving DecidableEq

/-- The headers each verb's private request method sends: `_get`,
`_post`, `_put`, `_patch` and `_delete` each pass
`headers=self._get_headers(headers)` to the underlying httpx call. -/
def sent_headers : Verb → String → Option (List (String × String)) → List (String × String)
  | Verb.get, credentials, headers => get_headers credentials headers
  | Verb.post, credentials, headers => get_headers credentials headers
  | Verb.put, credentials, headers => get_headers credentials headers
  | Verb.patch, credentials, headers => get_headers credentials headers
  | Verb.delete, credentials, headers => get_headers credentials headers

theorem lookupKey_setKey_same (d : List (String × String)) (k v : String) :
    lookupKey (setKey d k v) k = some v := by
  induction d with
  | nil => simp [setKey, lookupKey]
  | cons p rest ih =>
    obtain ⟨k1, v1⟩ := p
    by_cases h : k1 = k
    · simp [setKey, h, lookupKey]
    · simp [setKey, h, lookupKey, ih]

theorem lookupKey_setKey_other (d : List (String × String)) (k k2 v2 : String)
    (h : k ≠ k2) :
    lookupKey (setKey d k2 v2) k = lookupKey d k := by
  induction d with
  | nil =>
    have h2 : k2 ≠ k := fun hh => h hh.symm
    simp [setKey, lookupKey, h2]
  | cons p rest ih =>
    obtain ⟨k1, v1⟩ := p
    have h4 : k2 ≠ k := fun hh => h hh.symm
    by_cases h1 : k1 = k2
    · simp [setKey, h1, lookupKey, h4]
    · by_cases h2 : k1 = k <;> simp [setKey, h1, lookupKey, h2, h, h4, ih]

theorem lookupKey_none_of_not_mem (d : List (String × String)) (k : String)
    (h : k ∉ d.map Prod.fst) :
    lookupKey d k = none := by
  induction d with
  | nil => rfl
  | cons p rest ih =>
    obtain ⟨k1, v1⟩ := p
    simp only [List.map_cons, List.mem_cons, not_or] at h
    have h1 : k1 ≠ k := fun hh => h.1 hh.symm
    simp [lookupKey, h1, ih h.2]

theorem dictUpdate_lookup :
    ∀ d2 : List (String × String), (d2.map Prod.fst).Nodup →
      ∀ (d1 : List (String × String)) (k : String),
        lookupKey (dictUpdate d1 d2) k
          = match lookupKey d2 k with
            | some v => some v
            | none => lookupKey d1 k := by
  intro d2
  induction d2 with
  | nil => intro _ d1 k; rfl
  | cons p rest ih =>
    obtain ⟨k2, v2⟩ := p
    intro hnd d1 k
    simp only [List.map_cons, List.nodup_cons] at hnd
    obtain ⟨hk2, hrest⟩ := hnd
    have step : dictUpdate d1 ((k2, v2) :: rest) = dictUpdate (setKey d1 k2 v2) rest := rfl
    rw [step, ih hrest]
    by_cases h : k2 = k
    · subst h
      have hnone : lookupKey rest k2 = none := lookupKey_none_of_not_mem rest k2 hk2
      simp [lookupKey, hnone, lookupKey_setKey_same]
    · have ho := lookupKey_setKey_other d1 k k2 v2 (fun hh => h hh.symm)
      cases hrk : lookupKey rest k <;> simp [lookupKey, h, hrk, ho]

/-- C8: for every transport verb and caller-supplied header dict (with
the unique keys of a Python dict), the headers sent are the two base
headers overridden by the caller's entries: lookup prefers the caller's
value on every key, `Authorization: Basic <token>` and
`Accept: application/json` are present unless the caller set those keys,
and every caller-supplied header is present with its own value. -/
theorem transport_headers (verb : Verb) (credentials : String)
    (caller : List (String × String)) (hnd : (caller.map Prod.fst).Nodup)
    (k : String) :
    (lookupKey (sent_headers verb credentials (some caller)) k
        = match lookupKey caller k with
          | some v => some v
          | none => lookupKey (base_headers credentials) k)
    ∧ (lookupKey caller ("Authorization") = none →
        lookupKey (sent_headers verb credentials (some caller)) ("Authorization")
          = some (("Basic ") ++ credentials))
    ∧ (lookupKey caller ("Accept") = none →
        lookupKey (sent_headers verb credentials (some caller)) ("Accept")
          = some ("application/json"))
    ∧ (∀ v, lookupKey caller k = some v →
        lookupKey (sent_headers verb credentials (some caller)) k = some v) := by
  have hmain : ∀ key, lookupKey (sent_headers verb credentials (some caller)) key
      = match lookupKey caller key with
        | some v => some v
        | none => lookupKey (base_headers credentials) key := by
    intro key
    cases verb <;> exact dictUpdate_lookup caller hnd (base_headers credentials) key
  refine ⟨hmain k, ?_, ?_, ?_⟩
  · intro h
    rw [hmain ("Authorization"), h]
    simp [base_headers, lookupKey]
  · intro h
    rw [hmain ("Accept"), h]
    simp [base_headers, lookupKey]
  · intro v h
    rw [hmain k, h]

/-- Witness for C8: a caller override of `Accept` wins over the base
header. -/
theorem transport_headers_witness :
    (([(("Accept"), ("text/plain"))].map Prod.fst).Nodup)
    ∧ lookupKey (sent_headers Verb.get ("tok") (some [(("Accept"), ("text/plain"))]))
          ("Accept")
        = match lookupKey [(("Accept"), ("text/plain"))] ("Accept") with
          | some v => some v
          | none => lookupKey (base_headers ("tok")) ("Accept") :=
  ⟨by decide, (transport_headers Verb.get ("tok") _ (by decide) ("Accept")).1⟩

/-! ## Vulnerability-report lookup (claim C9)

`HarborAsyncClient.get_artifact_vulnerabilities` (client.py lines
631-654): a non-dict response yields `None`; `resp.get(mime_type)`
missing or falsy yields `None`; otherwise the report payload found under
the exact MIME-type key is handed to model construction (the
`HarborVulnerabilityReport` schema is not under `src/`, so the parsed
report is modelled as the raw payload itself). -/

def get_artifact_vulnerabilities (resp : Json) (mime_type : String) : Option Json :=
  match resp with
  | Json.obj kvs =>
    match objGet kvs mime_type with
    | none => none
    | some report => if truthy report then some report else none
  | _ => none

/-- C9: a non-object response, or an object (including the empty object)
without an entry under the exact requested MIME-type key, yields an
explicit absent result without error; an object with a truthy report
under that key yields exactly that report. -/
theorem vulnerabilities_lookup (mime : String) (kvs : List (String × Json))
    (report : Json) :
    (∀ j : Json, j.isObj = false → get_artifact_vulnerabilities j mime = none)
    ∧ (objGet kvs mime = none → get_artifact_vulnerabilities (Json.obj kvs) mime = none)
    ∧ get_artifact_vulnerabilities (Json.obj []) mime = none
    ∧ (objGet kvs mime = some report → truthy report = true →
        get_artifact_vulnerabilities (Json.obj kvs) mime = some report) := by
  refine ⟨?_, ?_, rfl, ?_⟩
  · intro j hj
    cases j <;> simp_all [Json.isObj, get_artifact_vulnerabilities]
  · intro h
    simp [get_artifact_vulnerabilities, h]
  · intro h ht
    simp [get_artifact_vulnerabilities, h, ht]

/-- The MIME type requested by default. -/
def mimeKey : String := "application/vnd.security.vulnerability.report; version=1.1"

/-- A concrete non-empty report payload. -/
def sampleReport : Json := Json.obj [(("severity"), Json.str ("High"))]

/-- Witness for C9: the report stored under the exact MIME-type key is
returned. -/
theorem vulnerabilities_lookup_witness :
    objGet [(mimeKey, sampleReport)] mimeKey = some sampleReport
    ∧ truthy sampleReport = true
    ∧ get_artifact_vulnerabilities (Json.obj [(mimeKey, sampleReport)]) mimeKey
        = some sampleReport :=
  ⟨rfl, rfl,
    (vulnerabilities_lookup mimeKey [(mimeKey, sampleReport)] sampleReport).2.2.2 rfl rfl⟩

end Harborapi
